import Mathlib

/-!
Verification of the xmind-markdown conversion core.

The development shallowly embeds the TypeScript sources:

* `Js`     — semantics of the JavaScript string primitives the code uses
             (`String.prototype.trim`, `replace(/\s+/g, ' ')`, `split`, …).
* `XM`     — the main library (`src/lib/parser.ts` + `src/lib/stats.ts`):
             `XmindParser`, `XmindToMarkdownConverter`, `StatsCalculator`.
* `Client` — the bundled client-side converter (client-converter module),
             where its behaviour differs from `XM`.
* `Plan`   — the converter described in the implementation-plan document
             (`topicToMarkdown`, `getMarkerEmoji`), the only renderer with
             the depth ≥ 4 bullet rules.
-/

namespace Js

/-- The character class matched by `\s` in JavaScript regular expressions,
which is also the set stripped by `String.prototype.trim`. -/
def isWs (c : Char) : Bool :=
  let n := c.toNat
  n == 9 || n == 10 || n == 11 || n == 12 || n == 13 || n == 32 ||
  n == 160 || n == 0x1680 || (0x2000 ≤ n && n ≤ 0x200A) ||
  n == 0x2028 || n == 0x2029 || n == 0x202F || n == 0x205F ||
  n == 0x3000 || n == 0xFEFF

/-- Remove the trailing run of whitespace. -/
def trimRight : List Char → List Char
  | [] => []
  | c :: cs =>
    match trimRight cs with
    | [] => if isWs c then [] else [c]
    | r => c :: r

/-- Source `String.prototype.trim`: strip leading and trailing whitespace. -/
def trim (l : List Char) : List Char :=
  trimRight (l.dropWhile isWs)

/-- Source `replace(/\s+/g, ' ')`: each maximal whitespace run becomes one space.
The boolean records whether the previous character was whitespace (i.e.
whether we are inside a run that already emitted its single space). -/
def collapseAux : Bool → List Char → List Char
  | _, [] => []
  | prevWs, c :: cs =>
    if isWs c then
      if prevWs then collapseAux true cs else ' ' :: collapseAux true cs
    else
      c :: collapseAux false cs

def collapseWs (l : List Char) : List Char :=
  collapseAux false l

/-- Source `replace(/c/g, r)` for a single-character pattern. -/
def replaceChar (c : Char) (r : List Char) : List Char → List Char
  | [] => []
  | x :: xs => (if x = c then r else [x]) ++ replaceChar c r xs

/-- Truthiness of an optional JavaScript string: present and non-empty. -/
def truthy : Option String → Bool
  | none => false
  | some s => s ≠ ""

/-- Source `split` on a single-character separator (structural, as JS `split`). -/
def splitCharAux (sep : Char) : List Char → List Char → List (List Char)
  | [], cur => [cur.reverse]
  | c :: cs, cur =>
    if c = sep then cur.reverse :: splitCharAux sep cs []
    else splitCharAux sep cs (c :: cur)

/-- Source `s.split(sep)` for a one-character separator. -/
def split (sep : Char) (s : String) : List String :=
  (splitCharAux sep s.data []).map String.mk

/-- Tests whether `p` is a prefix of `l`. -/
def startsWithList : List Char → List Char → Bool
  | [], _ => true
  | _ :: _, [] => false
  | p :: ps, c :: cs => p = c && startsWithList ps cs

/-- Source `s.startsWith(p)`. -/
def startsWith (s p : String) : Bool :=
  startsWithList p.data s.data

/-- Source `a || b` for a possibly-absent string with a string default. -/
def orElse (a : Option String) (b : String) : String :=
  match a with
  | none => b
  | some s => if s = "" then b else s

end Js

namespace XM

/-- A hyperlink extracted from a topic (`{ href, type, title? }`).
`type` is one of the literal strings `"url"`, `"file"`, `"topic"`. -/
structure Link where
  href : String
  type : String
  title : Option String
deriving DecidableEq, Repr

/-- An attachment extracted from a topic. -/
structure Attachment where
  filename : String
  mimeType : String
  size : Nat
  path : String
  type : String
deriving DecidableEq, Repr

/-- The non-recursive fields of a `ParsedTopic` (the object produced by
fast-xml-parser for one `topic` element).  Chained optional accesses of the
source are flattened into one field:
`attrId` is the value of attribute access `topic['@_id']`,
`text` of `topic['#text']`,
`markerRefIds` lists the `'@_marker-id'` attribute of each entry of
`topic['marker-refs']['marker-ref']` (`[]` when that chain is absent),
`href` is `topic['@_href']`,
`notesPlain` is `topic.notes?.['plain-text']`,
`labelEntries` lists the entries of `topic.labels?.label`
(`some s` for a string entry, `none` for a non-string entry),
`imgSrcs` lists the `'@_src'` attribute of each `topic['xhtml:img']` entry. -/
structure PData where
  attrId : Option String
  title : Option String
  text : Option String
  markerRefIds : List (Option String)
  href : Option String
  notesPlain : Option String
  labelEntries : List (Option String)
  imgSrcs : List (Option String)
deriving DecidableEq, Repr

mutual
/-- A parsed XML topic element: its scalar data plus the child container
`topic.children?.topics` (`none` when the wrapper or the sequence is absent). -/
inductive ParsedTopic where
  | mk (data : PData) (childrenTopics : Option PTList)
/-- A sequence of parsed topic elements. -/
inductive PTList where
  | nil
  | cons (t : ParsedTopic) (ts : PTList)
end

def ParsedTopic.data : ParsedTopic → PData
  | .mk d _ => d

def ParsedTopic.childrenTopics : ParsedTopic → Option PTList
  | .mk _ cs => cs

/-- The non-recursive fields of a domain `XmindTopic`. -/
structure TData where
  id : String
  title : String
  level : Nat
  parentId : Option String
  markers : List String
  links : List Link
  notes : Option String
  labels : List String
  attachments : List Attachment
  createdAt : Option String
  modifiedAt : Option String
deriving DecidableEq, Repr

mutual
/-- A domain topic (`XmindTopic`).  The source stores `undefined` instead of
an empty `children` array; every consumer guards with
`children && children.length > 0`, so both are represented by `XTList.nil`. -/
inductive XTopic where
  | mk (data : TData) (children : XTList)
/-- A sequence of domain topics. -/
inductive XTList where
  | nil
  | cons (t : XTopic) (ts : XTList)
end

def XTopic.data : XTopic → TData
  | .mk d _ => d

def XTopic.children : XTopic → XTList
  | .mk _ cs => cs

def XTList.length : XTList → Nat
  | .nil => 0
  | .cons _ ts => ts.length + 1

/-- Source `ConversionOptions` (the fields the converter reads). -/
structure Options where
  includeMetadata : Bool
  includeIds : Bool
  includeTimestamps : Bool
  skipEmpty : Bool
  preserveFormatting : Bool
  maxDepth : Option Nat
deriving DecidableEq, Repr

/-- Source `DEFAULT_OPTIONS` of the converter module. -/
def defaultOptions : Options :=
  { includeMetadata := false
    includeIds := false
    includeTimestamps := false
    skipEmpty := true
    preserveFormatting := false
    maxDepth := none }

end XM

namespace XM

/-- Source `DEFAULT_MARKERS`: the static marker-id → symbol table of `XmindParser`. -/
def defaultMarkers : List (String × String) :=
  [("priority-1", "🔴"), ("priority-2", "🟠"), ("priority-3", "🟡"),
   ("priority-4", "🟢"), ("priority-5", "🔵"), ("priority-6", "⚪"),
   ("task-start", "▶"), ("task-half", "◐"), ("task-done", "◼"),
   ("task-overtime", "⏰"),
   ("flag-red", "🚩"), ("flag-orange", "🏳"), ("flag-yellow", "🏴"),
   ("smile-laugh", "😂"), ("smile-think", "🤔"), ("smile-angry", "😠"),
   ("smile-cry", "😢"), ("smile-cool", "😎"),
   ("symbol-ok", "✓"), ("symbol-wrong", "✗"), ("symbol-question", "?"),
   ("symbol-wait", "⌛"), ("symbol-idea", "💡"), ("symbol-important", "❗"),
   ("symbol-note", "📝"),
   ("arrow-up", "↑"), ("arrow-down", "↓"), ("arrow-left", "←"),
   ("arrow-right", "→"),
   ("month-1", "📅"), ("month-2", "📅"), ("month-3", "📅"),
   ("month-4", "📅"), ("month-5", "📅"), ("month-6", "📅"),
   ("month-7", "📅"), ("month-8", "📅"), ("month-9", "📅"),
   ("month-10", "📅"), ("month-11", "📅"), ("month-12", "📅"),
   ("week-1", "📆"), ("week-2", "📆"), ("week-3", "📆"), ("week-4", "📆")]

/-- The parser's `markerMap` as a lookup function (`Record<string, string>`). -/
def MarkerMap : Type := String → Option String

/-- Source `markerMap` of a parser constructed without custom markers. -/
def defaultMarkerMap : MarkerMap := fun id => (defaultMarkers.lookup id)

/-- Supply of fresh identifiers, standing for `Date.now()` / `Math.random()`
inside `generateId`.  A run of the program corresponds to one `supply`. -/
structure Gen where
  supply : Nat → String
  counter : Nat

/-- Source `XmindParser.generateId`: draw the next identifier from the supply. -/
def generateId (g : Gen) : String × Gen :=
  (g.supply g.counter, { g with counter := g.counter + 1 })

/-- Source `XmindParser.extractTitle`. -/
def extractTitle (p : ParsedTopic) : String :=
  if Js.truthy p.data.title then p.data.title.getD ""
  else if Js.truthy p.data.text then p.data.text.getD ""
  else "Untitled Topic"

/-- Source `XmindParser.extractMarkers`: resolve each `marker-ref` entry through the
marker map; a known id maps to its (truthy) symbol, an unknown id falls back
to `[id]`, an entry with a falsy id is skipped. -/
def extractMarkers (mm : MarkerMap) (refs : List (Option String)) : List String :=
  match refs with
  | [] => []
  | r :: rest =>
    match r with
    | some id =>
      if id ≠ "" then
        (if Js.truthy (mm id) then [(mm id).getD ""] else ["[" ++ id ++ "]"])
          ++ extractMarkers mm rest
      else extractMarkers mm rest
    | none => extractMarkers mm rest

/-- Source `XmindParser.extractLinks`: classify the single optional `@_href`. -/
def extractLinks (p : ParsedTopic) : List Link :=
  match p.data.href with
  | none => []
  | some href =>
    let type :=
      if Js.startsWith href "#" then "topic"
      else if Js.startsWith href "file://" || Js.startsWith href "./" then "file"
      else "url"
    [{ href := href, type := type, title := none }]

/-- Source `XmindParser.extractNotes`. -/
def extractNotes (p : ParsedTopic) : Option String :=
  if Js.truthy p.data.notesPlain then some (p.data.notesPlain.getD "") else none

/-- Source `XmindParser.extractLabels`: keep only the string entries. -/
def extractLabels (p : ParsedTopic) : List String :=
  p.data.labelEntries.filterMap id

/-- Source `getMimeTypeFromSrc`. -/
def getMimeTypeFromSrc (src : String) : String :=
  let ext := ((Js.split '.' src).getLastD "").map Char.toLower
  match ext with
  | "jpg" => "image/jpeg"
  | "jpeg" => "image/jpeg"
  | "png" => "image/png"
  | "gif" => "image/gif"
  | "svg" => "image/svg+xml"
  | "webp" => "image/webp"
  | "bmp" => "image/bmp"
  | _ => "image/jpeg"

/-- Source `XmindParser.extractAttachments`: one image attachment per truthy
`xhtml:img` source; `filename` is the last `/`-segment (`'image'` if empty). -/
def extractAttachments (p : ParsedTopic) : List Attachment :=
  p.data.imgSrcs.filterMap fun srcOpt =>
    match srcOpt with
    | none => none
    | some src =>
      if src = "" then none
      else
        some { filename := Js.orElse (some ((Js.split '/' src).getLastD "")) "image"
               mimeType := getMimeTypeFromSrc src
               size := 0
               path := src
               type := "image" }

/-- Source `XmindParser.isValidTopic`: on a typed (non-array) topic node this is
always `true`; the array branch of the source only rejects `[]`. -/
def isValidTopic (_ : ParsedTopic) : Bool := true

/-- The guard `!options?.maxDepth || level < options.maxDepth`
(note `maxDepth == 0` is falsy and therefore also means "no limit"). -/
def maxDepthAllows (opts : Options) (level : Nat) : Bool :=
  match opts.maxDepth with
  | none => true
  | some 0 => true
  | some d => level < d

/-- Source `const id = topic['@_id'] || this.generateId()` (an empty attribute is
falsy and also triggers generation). -/
def resolveId (attrId : Option String) (g : Gen) : String × Gen :=
  match attrId with
  | some s => if s = "" then generateId g else (s, g)
  | none => generateId g

mutual
/-- Source `XmindParser.parseTopic`: build one domain topic at `level` with
`parentId`, threading the id supply. -/
def parseTopic (mm : MarkerMap) (opts : Options) (p : ParsedTopic)
    (level : Nat) (parentId : Option String) (g : Gen) : XTopic × Gen :=
  match p with
  | .mk pdata cts =>
    let idg := resolveId pdata.attrId g
    let chg :=
      match cts with
      | some ts =>
        if maxDepthAllows opts level then
          parseChildren mm opts ts (level + 1) idg.1 idg.2
        else (XTList.nil, idg.2)
      | none => (XTList.nil, idg.2)
    (XTopic.mk
      { id := idg.1
        title := extractTitle (.mk pdata cts)
        level := level
        parentId := parentId
        markers := extractMarkers mm pdata.markerRefIds
        links := extractLinks (.mk pdata cts)
        notes := extractNotes (.mk pdata cts)
        labels := extractLabels (.mk pdata cts)
        attachments := extractAttachments (.mk pdata cts)
        createdAt := none
        modifiedAt := none }
      chg.1, chg.2)

/-- The child loop of `parseTopic`. -/
def parseChildren (mm : MarkerMap) (opts : Options) (ts : PTList)
    (level : Nat) (parentId : String) (g : Gen) : XTList × Gen :=
  match ts with
  | .nil => (XTList.nil, g)
  | .cons c cs =>
    if isValidTopic c then
      let xg := parseTopic mm opts c level (some parentId) g
      let ysg := parseChildren mm opts cs level parentId xg.2
      (XTList.cons xg.1 ysg.1, ysg.2)
    else parseChildren mm opts cs level parentId g
end

/-- The parsed XMind content handed to `extractTopicTree` (its `topic` field). -/
structure ParsedContent where
  topic : Option ParsedTopic

/-- Source `XmindParser.extractTopicTree`: fail when the root topic element is
missing, otherwise build the tree from level 0 with no parent. -/
def extractTopicTree (mm : MarkerMap) (opts : Options) (content : ParsedContent)
    (g : Gen) : Except String (XTopic × Gen) :=
  match content.topic with
  | none => .error "No root topic found in XMind content"
  | some rt => .ok (parseTopic mm opts rt 0 none g)

end XM

namespace XM

/-- Source `XmindToMarkdownConverter.sanitizeTitle`:
`title.trim().replace(/\s+/g, ' ').replace(/</g, '&lt;').replace(/>/g, '&gt;')`. -/
def sanitizeTitle (title : String) : String :=
  String.mk (Js.replaceChar '>' "&gt;".data
    (Js.replaceChar '<' "&lt;".data (Js.collapseWs (Js.trim title.data))))

/-- Source `XmindToMarkdownConverter.notesToBlockquote`. -/
def notesToBlockquote (notes : String) : String :=
  String.intercalate "\n> "
    (((Js.split '\n' notes).map (fun l => String.mk (Js.trim l.data))).filter
      (fun l => l ≠ ""))

/-- Source `'#'.repeat(Math.min(depth, 6))`. -/
def hashesFor (depth : Nat) : String :=
  String.mk (List.replicate (min depth 6) '#')

mutual
/-- Source `XmindToMarkdownConverter.convertTopic`: the lines appended to `lines`
for one topic and its subtree, rendered at heading `depth`. -/
def convertTopicLines (opts : Options) (t : XTopic) (depth : Nat) : List String :=
  match t with
  | .mk d children =>
    let title := sanitizeTitle d.title
    let topicLine :=
      hashesFor depth ++ " " ++ title
        ++ (if d.markers ≠ [] then " " ++ String.intercalate " " d.markers else "")
        ++ (if opts.includeIds && d.id ≠ "" then
              " \x7b: id=\x22" ++ d.id ++ "\x22\x7d" else "")
    let noteLines :=
      match d.notes with
      | some n => if n ≠ "" then ["", "> " ++ notesToBlockquote n, ""] else []
      | none => []
    let labelLines :=
      if d.labels ≠ [] then
        ["**Tags:** " ++ String.intercalate " "
          (d.labels.map (fun l => "`" ++ l ++ "`")), ""]
      else []
    let linkLines :=
      if d.links ≠ [] then
        ((d.links.filter (fun l => l.type = "url" || l.type = "file")).map
          (fun l => "🔗 [" ++ (l.title.getD l.href) ++ "](" ++ l.href ++ ")"))
          ++ [""]
      else []
    let attachmentLines :=
      if d.attachments ≠ [] then
        (d.attachments.map (fun a =>
          if a.type = "image" then "![" ++ a.filename ++ "](" ++ a.path ++ ")"
          else "📎 [" ++ a.filename ++ "](" ++ a.path ++ ")"))
          ++ [""]
      else []
    let timeLines :=
      if opts.includeTimestamps then
        if d.createdAt.isSome || d.modifiedAt.isSome then
          ["*" ++ String.intercalate " | "
            ((match d.createdAt with
              | some c => ["Created: " ++ c]
              | none => [])
             ++ (match d.modifiedAt with
                 | some m => ["Modified: " ++ m]
                 | none => [])) ++ "*", ""]
        else []
      else []
    [topicLine] ++ noteLines ++ labelLines ++ linkLines ++ attachmentLines
      ++ timeLines ++ convertChildrenLines opts children (depth + 1)

/-- The child loop of `convertTopic`. -/
def convertChildrenLines (opts : Options) (ts : XTList) (depth : Nat) : List String :=
  match ts with
  | .nil => []
  | .cons c cs => convertTopicLines opts c depth ++ convertChildrenLines opts cs depth
end

mutual
/-- Source `XmindToMarkdownConverter.countTopics`. -/
def countTopics : XTopic → Nat
  | .mk _ children => 1 + countTopicsList children

def countTopicsList : XTList → Nat
  | .nil => 0
  | .cons c cs => countTopics c + countTopicsList cs
end

mutual
/-- Source `XmindToMarkdownConverter.getMaxDepth`:
a leaf reports its own `level`, otherwise `Math.max` of the children. -/
def getMaxDepth : XTopic → Nat
  | .mk d .nil => d.level
  | .mk _ (.cons c cs) => max (getMaxDepth c) (getMaxDepthList cs)

def getMaxDepthList : XTList → Nat
  | .nil => 0
  | .cons c cs => max (getMaxDepth c) (getMaxDepthList cs)
end

/-- Source `XmindToMarkdownConverter.topicTreeToMarkdown`.  `nowIso` stands for
`new Date().toISOString()` evaluated inside the optional metadata block. -/
def topicTreeToMarkdown (opts : Options) (nowIso : String) (root : XTopic) : String :=
  let metaLines :=
    if opts.includeMetadata then
      ["<!--", "Generated: " ++ nowIso,
       "Topics: " ++ toString (countTopics root),
       "Max Depth: " ++ toString (getMaxDepth root), "-->", ""]
    else []
  let childLines :=
    match root.children with
    | .nil => []
    | cs => convertChildrenLines opts cs 2
  String.intercalate "\n"
    (["# " ++ sanitizeTitle root.data.title, ""] ++ metaLines ++ childLines)

end XM


namespace XM

/-- The CJK character class of `StatsCalculator.countWords`. -/
def isCJK (c : Char) : Bool :=
  let n := c.toNat
  (0x4e00 ≤ n && n ≤ 0x9fa5) || (0x3400 ≤ n && n ≤ 0x4dbf) ||
  (0x3040 ≤ n && n ≤ 0x309f) || (0x30a0 ≤ n && n ≤ 0x30ff)

/-- Number of maximal non-whitespace runs, i.e.
`text.split(/\s+/).filter(w => w.length > 0).length`. -/
def nonWsRuns : Bool → List Char → Nat
  | _, [] => 0
  | inWord, c :: cs =>
    if Js.isWs c then nonWsRuns false cs
    else if inWord then nonWsRuns true cs
    else 1 + nonWsRuns true cs

/-- Source `StatsCalculator.countWords`: CJK characters count one word each, the
rest is split on whitespace. -/
def countWords (text : String) : Nat :=
  let trimmed := Js.collapseWs (Js.trim text.data)
  if trimmed = [] then 0
  else
    (trimmed.filter isCJK).length
      + nonWsRuns false (trimmed.map (fun c => if isCJK c then ' ' else c))

/-- Source `StatsAccumulator`.  `levelDistribution` models the insertion-ordered
JavaScript `Map`; character counts are in characters. -/
structure StatsAcc where
  totalTopics : Nat
  maxDepth : Nat
  rootTopics : Nat
  markersProcessed : Nat
  attachmentsProcessed : Nat
  linksProcessed : Nat
  imagesProcessed : Nat
  levelDistribution : List (Nat × Nat)
  wordCount : Nat
  charCount : Nat
  topicsWithNotes : Nat
  topicsWithMarkers : Nat
  topicsWithLinks : Nat
  topicsWithAttachments : Nat
deriving DecidableEq, Repr

/-- Source `Map.prototype.set`: replace an existing binding in place, else append. -/
def mapSet : List (Nat × Nat) → Nat → Nat → List (Nat × Nat)
  | [], k, v => [(k, v)]
  | (k', v') :: rest, k, v =>
    if k' = k then (k, v) :: rest else (k', v') :: mapSet rest k v

/-- Source `Map.prototype.get` with the `|| 0` default used by the source. -/
def mapGet (m : List (Nat × Nat)) (k : Nat) : Nat :=
  match m.lookup k with
  | some v => v
  | none => 0

/-- Source `totalTopics++` of `traverseTopic`. -/
def accCount (acc : StatsAcc) : StatsAcc :=
  { acc with totalTopics := acc.totalTopics + 1 }

/-- The max-depth update of `traverseTopic`. -/
def accDepth (d : TData) (acc : StatsAcc) : StatsAcc :=
  if d.level > acc.maxDepth then { acc with maxDepth := d.level } else acc

/-- The level-distribution update of `traverseTopic`. -/
def accDist (d : TData) (acc : StatsAcc) : StatsAcc :=
  let dist :=
    mapSet acc.levelDistribution d.level (mapGet acc.levelDistribution d.level + 1)
  { acc with levelDistribution := dist }

/-- The title word/char-count update of `traverseTopic`. -/
def accTitle (d : TData) (acc : StatsAcc) : StatsAcc :=
  if d.title ≠ "" then
    { acc with wordCount := acc.wordCount + countWords d.title,
               charCount := acc.charCount + d.title.length }
  else acc

/-- The notes update of `traverseTopic`. -/
def accNotes (d : TData) (acc : StatsAcc) : StatsAcc :=
  match d.notes with
  | some n =>
    if n ≠ "" then
      { acc with topicsWithNotes := acc.topicsWithNotes + 1,
                 wordCount := acc.wordCount + countWords n,
                 charCount := acc.charCount + n.length }
    else acc
  | none => acc

/-- The markers update of `traverseTopic`. -/
def accMarkers (d : TData) (acc : StatsAcc) : StatsAcc :=
  if d.markers ≠ [] then
    { acc with topicsWithMarkers := acc.topicsWithMarkers + 1,
               markersProcessed := acc.markersProcessed + d.markers.length }
  else acc

/-- The links update of `traverseTopic`. -/
def accLinks (d : TData) (acc : StatsAcc) : StatsAcc :=
  if d.links ≠ [] then
    { acc with topicsWithLinks := acc.topicsWithLinks + 1,
               linksProcessed := acc.linksProcessed + d.links.length }
  else acc

/-- The attachments/images update of `traverseTopic`. -/
def accAttachments (d : TData) (acc : StatsAcc) : StatsAcc :=
  if d.attachments ≠ [] then
    { acc with topicsWithAttachments := acc.topicsWithAttachments + 1,
               attachmentsProcessed :=
                 acc.attachmentsProcessed + d.attachments.length,
               imagesProcessed :=
                 acc.imagesProcessed
                   + (d.attachments.filter (fun a => a.type = "image")).length }
  else acc

/-- All per-topic statements of `traverseTopic`, in source order. -/
def accTopic (d : TData) (acc : StatsAcc) : StatsAcc :=
  accAttachments d (accLinks d (accMarkers d (accNotes d
    (accTitle d (accDist d (accDepth d (accCount acc)))))))

mutual
/-- Source `StatsCalculator.traverseTopic`: accumulate one topic, then its children. -/
def traverseTopic (t : XTopic) (acc : StatsAcc) : StatsAcc :=
  match t with
  | .mk d children => traverseList children (accTopic d acc)

def traverseList (ts : XTList) (acc : StatsAcc) : StatsAcc :=
  match ts with
  | .nil => acc
  | .cons c cs => traverseList cs (traverseTopic c acc)
end

/-- The fresh accumulator both calculators start from — note `rootTopics`
starts at `1` and is never written again by the traversal. -/
def initAcc : StatsAcc :=
  { totalTopics := 0, maxDepth := 0, rootTopics := 1,
    markersProcessed := 0, attachmentsProcessed := 0, linksProcessed := 0,
    imagesProcessed := 0, levelDistribution := [], wordCount := 0,
    charCount := 0, topicsWithNotes := 0, topicsWithMarkers := 0,
    topicsWithLinks := 0, topicsWithAttachments := 0 }

/-- Source `ConversionStats` (the base record). `processingTime` is the measured
duration, passed in as `elapsed`. -/
structure ConversionStats where
  totalTopics : Nat
  maxDepthReached : Nat
  rootTopics : Nat
  processingTime : Nat
  markersProcessed : Nat
  attachmentsProcessed : Nat
  linksProcessed : Nat
  imagesProcessed : Nat
deriving DecidableEq, Repr

/-- Source `StatsCalculator.calculateStats`. -/
def calculateStats (root : XTopic) (elapsed : Nat) : ConversionStats :=
  let acc := traverseTopic root initAcc
  { totalTopics := acc.totalTopics,
    maxDepthReached := acc.maxDepth,
    rootTopics := acc.rootTopics,
    processingTime := elapsed,
    markersProcessed := acc.markersProcessed,
    attachmentsProcessed := acc.attachmentsProcessed,
    linksProcessed := acc.linksProcessed,
    imagesProcessed := acc.imagesProcessed }

/-- The extended record returned by `StatsCalculator.calculateDetailedStats`. -/
structure DetailedStats where
  totalTopics : Nat
  maxDepthReached : Nat
  rootTopics : Nat
  processingTime : Nat
  markersProcessed : Nat
  attachmentsProcessed : Nat
  linksProcessed : Nat
  imagesProcessed : Nat
  wordCount : Nat
  charCount : Nat
  levelDistribution : List (Nat × Nat)
  topicsWithNotes : Nat
  topicsWithMarkers : Nat
  topicsWithLinks : Nat
  topicsWithAttachments : Nat
deriving DecidableEq, Repr

/-- Source `StatsCalculator.calculateDetailedStats`. -/
def calculateDetailedStats (root : XTopic) (elapsed : Nat) : DetailedStats :=
  let acc := traverseTopic root initAcc
  { totalTopics := acc.totalTopics,
    maxDepthReached := acc.maxDepth,
    rootTopics := acc.rootTopics,
    processingTime := elapsed,
    markersProcessed := acc.markersProcessed,
    attachmentsProcessed := acc.attachmentsProcessed,
    linksProcessed := acc.linksProcessed,
    imagesProcessed := acc.imagesProcessed,
    wordCount := acc.wordCount,
    charCount := acc.charCount,
    levelDistribution := acc.levelDistribution,
    topicsWithNotes := acc.topicsWithNotes,
    topicsWithMarkers := acc.topicsWithMarkers,
    topicsWithLinks := acc.topicsWithLinks,
    topicsWithAttachments := acc.topicsWithAttachments }

/-- The view of the detailed stats at the declared `ConversionStats` type. -/
def DetailedStats.base (s : DetailedStats) : ConversionStats :=
  { totalTopics := s.totalTopics,
    maxDepthReached := s.maxDepthReached,
    rootTopics := s.rootTopics,
    processingTime := s.processingTime,
    markersProcessed := s.markersProcessed,
    attachmentsProcessed := s.attachmentsProcessed,
    linksProcessed := s.linksProcessed,
    imagesProcessed := s.imagesProcessed }

end XM

namespace XM

/-- An XMind archive, abstracted as its list of (path, text) entries;
`zip.file(path)` is the first entry with that path. -/
def Zip : Type := List (String × String)

/-- The candidate paths of `extractXmindContent`, in source order. -/
def contentPaths : List String :=
  ["content/content.xml", "content.xml", "src/content.xml", "META-INF/content.xml"]

/-- The path loop of `extractXmindContent`: first existing entry wins. -/
def findContent (zip : Zip) : List String → Except String String
  | [] => .error "Could not find content.xml in XMind file"
  | p :: ps =>
    match List.lookup p zip with
    | some c => .ok c
    | none => findContent zip ps

/-- Source `XmindToMarkdownConverter.extractXmindContent`. -/
def extractXmindContent (zip : Zip) : Except String String :=
  findContent zip contentPaths

/-- Source `ConversionMetadata`.  The timestamp is the `nowIso` of the run. -/
structure Metadata where
  sourceFile : String
  sourceFormat : String
  timestamp : String
  version : String
deriving DecidableEq, Repr

/-- Source `ConversionResult`. -/
structure ConversionResult where
  content : String
  stats : ConversionStats
  metadata : Metadata
  success : Bool
  error : Option String
deriving DecidableEq, Repr

/-- The failed `ConversionResult` built in the `catch` branch of `convert`. -/
def failureResult (e : String) (fileName : Option String) (nowIso : String)
    (elapsed : Nat) : ConversionResult :=
  { content := ""
    stats :=
      { totalTopics := 0, maxDepthReached := 0, rootTopics := 0,
        processingTime := elapsed, markersProcessed := 0,
        attachmentsProcessed := 0, linksProcessed := 0, imagesProcessed := 0 }
    metadata :=
      { sourceFile := Js.orElse fileName "unknown", sourceFormat := "xmind",
        timestamp := nowIso, version := "1.0.0" }
    success := false
    error := some e }

/-- Source `XmindToMarkdownConverter.convert`: extract the archive entry, parse the
XML (`px` stands for the external `parser.parse` run behind `parseXML`),
build the tree, render, compute stats; any failure is caught and becomes a
failed result.  `g` supplies generated ids, `nowIso` the run's timestamp and
`elapsed` the measured duration. -/
def convert (opts : Options) (px : String → Except String ParsedContent)
    (fileName : Option String) (zip : Zip) (g : Gen) (nowIso : String)
    (elapsed : Nat) : ConversionResult :=
  match extractXmindContent zip with
  | .error e => failureResult e fileName nowIso elapsed
  | .ok xml =>
    match px xml with
    | .error e => failureResult e fileName nowIso elapsed
    | .ok content =>
      match extractTopicTree defaultMarkerMap opts content g with
      | .error e => failureResult e fileName nowIso elapsed
      | .ok (root, _) =>
        { content := topicTreeToMarkdown opts nowIso root
          stats := (calculateDetailedStats root elapsed).base
          metadata :=
            { sourceFile := Js.orElse fileName "unknown.xmind",
              sourceFormat := "xmind", timestamp := nowIso, version := "1.0.0" }
          success := true
          error := none }

end XM

namespace Client

/-- Source `calculateStats` of the client-side converter module: a plain traversal
with local counters; unlike `XM`, its `rootTopics` really is
`rootTopic.children?.length || 0`.  It reads the same domain-topic shape. -/
structure CStats where
  totalTopics : Nat
  maxDepthReached : Nat
  rootTopics : Nat
  processingTime : Nat
  markersProcessed : Nat
  attachmentsProcessed : Nat
  linksProcessed : Nat
  imagesProcessed : Nat
deriving DecidableEq, Repr

/-- The mutable counters of client `calculateStats`'s `traverse`. -/
structure CAcc where
  totalTopics : Nat
  maxDepth : Nat
  markersProcessed : Nat
  attachmentsProcessed : Nat
  linksProcessed : Nat
  imagesProcessed : Nat
deriving DecidableEq, Repr

mutual
/-- Source `traverse` inside client `calculateStats`. -/
def traverse (t : XM.XTopic) (acc : CAcc) : CAcc :=
  match t with
  | .mk d children =>
    let a1 := { acc with totalTopics := acc.totalTopics + 1 }
    let a2 := { a1 with maxDepth := max a1.maxDepth d.level }
    let a3 :=
      if d.markers ≠ [] then
        { a2 with markersProcessed := a2.markersProcessed + d.markers.length }
      else a2
    let a4 :=
      if d.attachments ≠ [] then
        { a3 with attachmentsProcessed :=
                    a3.attachmentsProcessed + d.attachments.length,
                  imagesProcessed :=
                    a3.imagesProcessed
                      + (d.attachments.filter (fun a => a.type = "image")).length }
      else a3
    let a5 :=
      if d.links ≠ [] then
        { a4 with linksProcessed := a4.linksProcessed + d.links.length }
      else a4
    traverseList children a5

def traverseList (ts : XM.XTList) (acc : CAcc) : CAcc :=
  match ts with
  | .nil => acc
  | .cons c cs => traverseList cs (traverse c acc)
end

/-- Client `calculateStats`. -/
def calculateStats (root : XM.XTopic) (elapsed : Nat) : CStats :=
  let acc := traverse root
    { totalTopics := 0, maxDepth := 0, markersProcessed := 0,
      attachmentsProcessed := 0, linksProcessed := 0, imagesProcessed := 0 }
  { totalTopics := acc.totalTopics,
    maxDepthReached := acc.maxDepth,
    rootTopics := root.children.length,
    processingTime := elapsed,
    markersProcessed := acc.markersProcessed,
    attachmentsProcessed := acc.attachmentsProcessed,
    linksProcessed := acc.linksProcessed,
    imagesProcessed := acc.imagesProcessed }

/-- The client converter's `extractXmindContent` candidate paths — note the
different order from `XM.contentPaths`. -/
def contentPaths : List String :=
  ["content.xml", "src/content.xml", "META-INF/content.xml", "content/content.xml"]

/-- Client `extractXmindContent`. -/
def extractXmindContent (zip : XM.Zip) : Except String String :=
  XM.findContent zip contentPaths

end Client

namespace Plan

/-- Source `MARKER_MAP` of the plan document's `parser.ts`. -/
def markerMap : List (String × String) :=
  [("flag", "🚩"), ("warning", "⚠️"), ("help", "❓"),
   ("yes", "✅"), ("no", "❌"), ("idea", "💡")]

mutual
/-- A (normalized) topic of the plan document's converter: `title`, the
`markerRefs?.markerRef` entries (each entry's `markerId`, `none` when the
entry lacks one, `[]` when the chain is absent), and `children?.topics`. -/
inductive PlanTopic where
  | mk (title : Option String) (markerRefIds : List (Option String))
       (children : PlanTList)
inductive PlanTList where
  | nil
  | cons (t : PlanTopic) (ts : PlanTList)
end

def PlanTopic.title : PlanTopic → Option String
  | .mk t _ _ => t

def PlanTopic.markerRefIds : PlanTopic → List (Option String)
  | .mk _ m _ => m

def PlanTopic.children : PlanTopic → PlanTList
  | .mk _ _ cs => cs

/-- Source `topic.children?.topics?.length > 0`. -/
def PlanTList.isCons : PlanTList → Bool
  | .nil => false
  | .cons _ _ => true

/-- Source `getMarkerEmoji`:
`topic.markerRefs?.markerRef?.[0]?.markerId || ''`, first `-`-segment,
looked up in `MARKER_MAP` with `|| ''`. -/
def getMarkerEmoji (t : PlanTopic) : String :=
  let markerId :=
    match t.markerRefIds with
    | [] => ""
    | none :: _ => ""
    | some s :: _ => if s = "" then "" else s
  let baseMarker := ((Js.split '-' markerId).headD "")
  Js.orElse (markerMap.lookup baseMarker) ""

/-- Source `title.trim().replace(/:$/, '')` — strip one trailing half-width colon. -/
def stripColon (s : String) : String :=
  if s.data.getLast? = some ':' then String.mk s.data.dropLast else s

mutual
/-- Source `topicToMarkdown`: the `lines` array built for a topic at `depth`.  Each
recursive call contributes one element holding the child's joined markdown. -/
def topicLines (t : PlanTopic) (depth : Nat) : List String :=
  match t with
  | .mk titleOpt mrefs children =>
    let title := Js.orElse titleOpt "(無標題)"
    let emoji := getMarkerEmoji (.mk titleOpt mrefs children)
    let hasChildren := children.isCons
    let head :=
      if depth = 1 then ["# " ++ emoji ++ title ++ "\n"]
      else if depth = 2 then ["## " ++ emoji ++ title ++ "\n"]
      else if depth = 3 then
        ["### " ++ emoji ++ title ++ "\n"] ++ (if hasChildren then [] else [""])
      else
        let indent := String.mk (List.replicate ((depth - 4) * 2) ' ')
        let base := stripColon (String.mk (Js.trim title.data))
        if hasChildren then [indent ++ "- " ++ emoji ++ base ++ ":"]
        else [indent ++ "- " ++ emoji ++ base]
    head ++ (if hasChildren then childBlocks children (depth + 1) else [])

/-- The recursion loop: each child contributes its joined markdown. -/
def childBlocks (ts : PlanTList) (depth : Nat) : List String :=
  match ts with
  | .nil => []
  | .cons c cs => String.intercalate "\n" (topicLines c depth) :: childBlocks cs depth
end

/-- Source `topicToMarkdown(topic, depth)` as returned (lines joined by newline). -/
def topicToMarkdown (t : PlanTopic) (depth : Nat) : String :=
  String.intercalate "\n" (topicLines t depth)

end Plan

namespace XM

/-- The sanitizer as the specification words it: collapse whitespace runs,
then trim the ends, then escape the two angle brackets. -/
def sanitizeTitleSpec (title : String) : String :=
  String.mk (Js.replaceChar '>' "&gt;".data
    (Js.replaceChar '<' "&lt;".data (Js.trim (Js.collapseWs title.data))))

/-- Number of leading `'#'` characters of a rendered line. -/
def leadingHashes (s : String) : Nat :=
  (s.data.takeWhile (fun c => c = '#')).length

mutual
/-- Level/parent bookkeeping invariant: every child's `level` is its
parent's plus one and its `parentId` is its parent's `id`, recursively. -/
def wfTopic (t : XTopic) : Bool :=
  match t with
  | .mk d children => wfChildren d.level d.id children

def wfChildren (lvl : Nat) (pid : String) (ts : XTList) : Bool :=
  match ts with
  | .nil => true
  | .cons c cs =>
    (c.data.level == lvl + 1) && (c.data.parentId == some pid)
      && wfTopic c && wfChildren lvl pid cs
end

mutual
/-- Erase the run-dependent fields of a built tree: generated `id`s and the
`parentId` references to them.  Rendering (without `includeIds`) and
statistics are invariant under this erasure. -/
def stripIds (t : XTopic) : XTopic :=
  match t with
  | .mk d ch => .mk { d with id := "", parentId := none } (stripIdsList ch)

def stripIdsList (ts : XTList) : XTList :=
  match ts with
  | .nil => .nil
  | .cons c cs => .cons (stripIds c) (stripIdsList cs)
end

/-- A parsed-topic record with only a title. -/
def pdataTitled (title : String) : PData :=
  { attrId := none, title := some title, text := none, markerRefIds := [],
    href := none, notesPlain := none, labelEntries := [], imgSrcs := [] }

/-- The end-to-end scenario document's root element: title "Root" with one
child "Child" carrying the marker `flag-red` (which resolves to 🚩). -/
def scenarioRoot : ParsedTopic :=
  .mk (pdataTitled "Root")
    (some (.cons
      (.mk { pdataTitled "Child" with markerRefIds := [some "flag-red"] } none)
      .nil))

/-- The end-to-end scenario document. -/
def scenarioContent : ParsedContent :=
  { topic := some scenarioRoot }

/-- An id supply standing for one concrete run. -/
def runGen : Gen :=
  { supply := fun n => "topic-1700000000000-r" ++ toString n, counter := 0 }

/-- An archive holding the scenario document at the standard path (the XML
text itself is irrelevant: parsing is abstracted by the `px` argument). -/
def scenarioZip : Zip := [("content/content.xml", "scenario-xml")]

/-- The external XML parse of the scenario archive's single entry. -/
def scenarioPx : String → Except String ParsedContent :=
  fun _ => .ok scenarioContent

/-- A childless domain topic carrying one resolved marker. -/
def flaggedTopic : XTopic :=
  .mk { id := "c1", title := "Child", level := 1, parentId := some "r1",
        markers := ["🚩"], links := [], notes := none, labels := [],
        attachments := [], createdAt := none, modifiedAt := none } .nil

/-- A childless domain topic. -/
def leafTopic : XTopic :=
  .mk { id := "r1", title := "Root", level := 0, parentId := none,
        markers := [], links := [], notes := none, labels := [],
        attachments := [], createdAt := none, modifiedAt := none } .nil

end XM

namespace Plan

/-- A depth-4 bullet topic whose title ends in a full-width colon and that
has one child. -/
def fullwidthColonTopic : PlanTopic :=
  .mk (some "A：") [] (.cons (.mk (some "B") [] .nil) .nil)

end Plan

namespace Js

theorem isWs_space : isWs ' ' = true := by decide

theorem ca_true_ws {c : Char} (h : isWs c = true) (cs : List Char) :
    collapseAux true (c :: cs) = collapseAux true cs := by
  simp [collapseAux, h]

theorem ca_false_ws {c : Char} (h : isWs c = true) (cs : List Char) :
    collapseAux false (c :: cs) = ' ' :: collapseAux true cs := by
  simp [collapseAux, h]

theorem ca_nonws {c : Char} (h : isWs c = false) (b : Bool) (cs : List Char) :
    collapseAux b (c :: cs) = c :: collapseAux false cs := by
  cases b <;> simp [collapseAux, h]

theorem tr_cons_ws_nil {c : Char} {cs : List Char} (h : isWs c = true)
    (hr : trimRight cs = []) : trimRight (c :: cs) = [] := by
  simp [trimRight, hr, h]

theorem tr_cons_cons {c : Char} {cs : List Char} {r : Char} {rs : List Char}
    (hr : trimRight cs = r :: rs) : trimRight (c :: cs) = c :: r :: rs := by
  simp [trimRight, hr]

theorem tr_cons_nonws {c : Char} (h : isWs c = false) (cs : List Char) :
    trimRight (c :: cs) = c :: trimRight cs := by
  cases hr : trimRight cs with
  | nil => simp [trimRight, hr, h]
  | cons r rs => simp [trimRight, hr]

theorem tr_cons_of_ne {cs : List Char} (c : Char) (h : trimRight cs ≠ []) :
    trimRight (c :: cs) = c :: trimRight cs := by
  cases hr : trimRight cs with
  | nil => exact absurd hr h
  | cons r rs => simp [trimRight, hr]

theorem collapseAux_true_nil_iff (l : List Char) :
    collapseAux true l = [] ↔ l.all isWs = true := by
  induction l with
  | nil => simp [collapseAux]
  | cons c cs ih =>
    cases h : isWs c with
    | true => rw [ca_true_ws h]; simp [h, ih]
    | false => rw [ca_nonws h]; simp [h]

theorem trimRight_nil_iff (l : List Char) :
    trimRight l = [] ↔ l.all isWs = true := by
  induction l with
  | nil => simp [trimRight]
  | cons c cs ih =>
    cases hr : trimRight cs with
    | nil =>
      have hcs : cs.all isWs = true := ih.mp hr
      cases h : isWs c with
      | true => rw [tr_cons_ws_nil h hr]; simp [h, hcs]
      | false => rw [tr_cons_nonws h, hr]; simp [h]
    | cons r rs =>
      have hcs : cs.all isWs ≠ true := fun hall => by
        rw [ih.mpr hall] at hr; exact List.noConfusion hr
      rw [tr_cons_cons hr]
      constructor
      · intro hcontr
        exact absurd hcontr (by simp)
      · intro hall
        rw [List.all_cons, Bool.and_eq_true] at hall
        exact False.elim (hcs hall.2)

theorem trimRight_all_ws (l : List Char) :
    (trimRight l).all isWs = true → trimRight l = [] := by
  induction l with
  | nil => intro _; rfl
  | cons c cs ih =>
    intro hall
    cases hr : trimRight cs with
    | nil =>
      cases h : isWs c with
      | true => exact tr_cons_ws_nil h hr
      | false =>
        rw [tr_cons_nonws h, hr] at hall
        simp [h] at hall
    | cons r rs =>
      rw [tr_cons_cons hr] at hall
      rw [List.all_cons, Bool.and_eq_true] at hall
      have h2 := ih (hr ▸ hall.2)
      rw [hr] at h2
      exact absurd h2 (by simp)

theorem dropWhile_collapseAux_true (l : List Char) :
    (collapseAux true l).dropWhile isWs = collapseAux true l := by
  induction l with
  | nil => rfl
  | cons c cs ih =>
    cases h : isWs c with
    | true => rw [ca_true_ws h]; exact ih
    | false => rw [ca_nonws h]; simp [List.dropWhile, h]

theorem collapseAux_true_eq (l : List Char) :
    collapseAux true l = collapseAux false (l.dropWhile isWs) := by
  induction l with
  | nil => rfl
  | cons c cs ih =>
    cases h : isWs c with
    | true => rw [ca_true_ws h, List.dropWhile_cons_of_pos (by simp [h])]; exact ih
    | false =>
      rw [List.dropWhile_cons_of_neg (by simp [h])]
      rw [ca_nonws h, ca_nonws h]

theorem dropWhile_collapseAux_false (l : List Char) :
    (collapseAux false l).dropWhile isWs = collapseAux true l := by
  induction l with
  | nil => rfl
  | cons c cs ih =>
    cases h : isWs c with
    | true =>
      rw [ca_false_ws h, ca_true_ws h]
      rw [List.dropWhile_cons_of_pos (by simp [isWs_space])]
      exact dropWhile_collapseAux_true cs
    | false =>
      rw [ca_nonws h, ca_nonws h]
      simp [List.dropWhile, h]

theorem collapseAux_trimRight (l : List Char) :
    ∀ b, collapseAux b (trimRight l) = trimRight (collapseAux b l) := by
  induction l with
  | nil => intro b; rfl
  | cons c cs ih =>
    intro b
    cases h : isWs c with
    | true =>
      cases hr : trimRight cs with
      | nil =>
        have hcs : cs.all isWs = true := (trimRight_nil_iff cs).mp hr
        have hgo : collapseAux true cs = [] := (collapseAux_true_nil_iff cs).mpr hcs
        rw [tr_cons_ws_nil h hr]
        cases b with
        | true => rw [ca_true_ws h, hgo]; rfl
        | false =>
          rw [ca_false_ws h, hgo]
          decide
      | cons r rs =>
        have hT : collapseAux true (r :: rs) = trimRight (collapseAux true cs) := by
          rw [← hr]; exact ih true
        have hne : trimRight (collapseAux true cs) ≠ [] := by
          rw [← hT]
          intro hnil
          have hall : (r :: rs).all isWs = true :=
            (collapseAux_true_nil_iff (r :: rs)).mp hnil
          have h0 : trimRight cs = [] := trimRight_all_ws cs (hr ▸ hall)
          rw [hr] at h0
          exact List.noConfusion h0
        rw [tr_cons_cons hr]
        cases b with
        | true => rw [ca_true_ws h, ca_true_ws h, hT]
        | false =>
          rw [ca_false_ws h, ca_false_ws h, hT]
          rw [tr_cons_of_ne ' ' hne]
    | false =>
      rw [tr_cons_nonws h, ca_nonws h, ca_nonws h, tr_cons_nonws h]
      rw [ih false]

end Js

namespace Js

theorem collapse_trim_comm (l : List Char) :
    collapseWs (trim l) = trim (collapseWs l) := by
  unfold collapseWs trim
  rw [collapseAux_trimRight, ← collapseAux_true_eq, dropWhile_collapseAux_false]

end Js

namespace XM

theorem sanitizeTitle_eq_spec (s : String) : sanitizeTitle s = sanitizeTitleSpec s := by
  unfold sanitizeTitle sanitizeTitleSpec
  rw [Js.collapse_trim_comm]

theorem takeWhile_hashes (n : Nat) (rest : List Char) :
    (List.replicate n '#' ++ ' ' :: rest).takeWhile (fun c => c = '#')
      = List.replicate n '#' := by
  induction n with
  | zero => simp [List.takeWhile]
  | succ k ih => simp_all [List.replicate, List.takeWhile]

theorem accCount_rootTopics (acc : StatsAcc) :
    (accCount acc).rootTopics = acc.rootTopics := rfl

theorem accDepth_rootTopics (d : TData) (acc : StatsAcc) :
    (accDepth d acc).rootTopics = acc.rootTopics := by
  unfold accDepth; split <;> rfl

theorem accDist_rootTopics (d : TData) (acc : StatsAcc) :
    (accDist d acc).rootTopics = acc.rootTopics := rfl

theorem accTitle_rootTopics (d : TData) (acc : StatsAcc) :
    (accTitle d acc).rootTopics = acc.rootTopics := by
  unfold accTitle; split <;> rfl

theorem accNotes_rootTopics (d : TData) (acc : StatsAcc) :
    (accNotes d acc).rootTopics = acc.rootTopics := by
  unfold accNotes
  cases d.notes with
  | none => rfl
  | some n => dsimp only; split <;> rfl

theorem accMarkers_rootTopics (d : TData) (acc : StatsAcc) :
    (accMarkers d acc).rootTopics = acc.rootTopics := by
  unfold accMarkers; split <;> rfl

theorem accLinks_rootTopics (d : TData) (acc : StatsAcc) :
    (accLinks d acc).rootTopics = acc.rootTopics := by
  unfold accLinks; split <;> rfl

theorem accAttachments_rootTopics (d : TData) (acc : StatsAcc) :
    (accAttachments d acc).rootTopics = acc.rootTopics := by
  unfold accAttachments; split <;> rfl

theorem accTopic_rootTopics (d : TData) (acc : StatsAcc) :
    (accTopic d acc).rootTopics = acc.rootTopics := by
  unfold accTopic
  rw [accAttachments_rootTopics, accLinks_rootTopics, accMarkers_rootTopics,
    accNotes_rootTopics, accTitle_rootTopics, accDist_rootTopics,
    accDepth_rootTopics, accCount_rootTopics]

mutual
theorem traverseTopic_rootTopics (t : XTopic) (acc : StatsAcc) :
    (traverseTopic t acc).rootTopics = acc.rootTopics := by
  cases t with
  | mk d children =>
    rw [traverseTopic, traverseList_rootTopics, accTopic_rootTopics]

theorem traverseList_rootTopics (ts : XTList) (acc : StatsAcc) :
    (traverseList ts acc).rootTopics = acc.rootTopics := by
  cases ts with
  | nil => rfl
  | cons c cs =>
    rw [traverseList, traverseList_rootTopics, traverseTopic_rootTopics]
end

end XM

namespace XM

mutual
theorem parseTopic_wf (mm : MarkerMap) (opts : Options) (p : ParsedTopic)
    (level : Nat) (pid : Option String) (g : Gen) :
    (parseTopic mm opts p level pid g).1.data.level = level ∧
    (parseTopic mm opts p level pid g).1.data.parentId = pid ∧
    wfTopic (parseTopic mm opts p level pid g).1 = true := by
  cases p with
  | mk pdata cts =>
    rw [parseTopic.eq_def]
    dsimp only
    cases cts with
    | none =>
      refine ⟨rfl, rfl, ?_⟩
      rw [wfTopic]
      rfl
    | some ts =>
      by_cases hmd : maxDepthAllows opts level
      · simp only [hmd, if_true]
        refine ⟨rfl, rfl, ?_⟩
        rw [wfTopic]
        exact parseChildren_wf mm opts ts level (resolveId pdata.attrId g).1
          (resolveId pdata.attrId g).2
      · refine ⟨rfl, rfl, ?_⟩
        rw [wfTopic]
        dsimp only
        rw [if_neg hmd]
        rfl

theorem parseChildren_wf (mm : MarkerMap) (opts : Options) (ts : PTList)
    (level : Nat) (pid : String) (g : Gen) :
    wfChildren level pid (parseChildren mm opts ts (level + 1) pid g).1 = true := by
  cases ts with
  | nil => rfl
  | cons c cs =>
    rw [parseChildren.eq_def]
    dsimp only
    simp only [isValidTopic, if_true]
    have hx := parseTopic_wf mm opts c (level + 1) (some pid) g
    have hxs := parseChildren_wf mm opts cs level pid
      (parseTopic mm opts c (level + 1) (some pid) g).2
    rw [wfChildren]
    simp [hx.1, hx.2.1, hx.2.2, hxs]
end

end XM

namespace XM

mutual
theorem stripIds_parseTopic (mm : MarkerMap) (opts : Options) (p : ParsedTopic)
    (level : Nat) (pid pid' : Option String) (g g' : Gen) :
    stripIds (parseTopic mm opts p level pid g).1 =
    stripIds (parseTopic mm opts p level pid' g').1 := by
  cases p with
  | mk pdata cts =>
    rw [parseTopic.eq_def, parseTopic.eq_def]
    dsimp only
    cases cts with
    | none =>
      dsimp only
      rw [stripIds, stripIds]
    | some ts =>
      dsimp only
      by_cases hmd : maxDepthAllows opts level
      · rw [if_pos hmd, if_pos hmd]
        rw [stripIds, stripIds]
        rw [stripIdsList_parseChildren mm opts ts (level + 1)
          (resolveId pdata.attrId g).1 (resolveId pdata.attrId g').1
          (resolveId pdata.attrId g).2 (resolveId pdata.attrId g').2]
      · rw [if_neg hmd, if_neg hmd]
        rw [stripIds, stripIds]

theorem stripIdsList_parseChildren (mm : MarkerMap) (opts : Options) (ts : PTList)
    (lv : Nat) (pid pid' : String) (g g' : Gen) :
    stripIdsList (parseChildren mm opts ts lv pid g).1 =
    stripIdsList (parseChildren mm opts ts lv pid' g').1 := by
  cases ts with
  | nil => rfl
  | cons c cs =>
    rw [parseChildren.eq_def, parseChildren.eq_def]
    dsimp only
    simp only [isValidTopic, if_true]
    rw [stripIdsList, stripIdsList]
    rw [stripIds_parseTopic mm opts c lv (some pid) (some pid') g g']
    rw [stripIdsList_parseChildren mm opts cs lv pid pid'
      (parseTopic mm opts c lv (some pid) g).2
      (parseTopic mm opts c lv (some pid') g').2]
end

end XM

namespace XM

theorem accDepth_strip (d : TData) (acc : StatsAcc) :
    accDepth { d with id := "", parentId := none } acc = accDepth d acc := rfl

theorem accDist_strip (d : TData) (acc : StatsAcc) :
    accDist { d with id := "", parentId := none } acc = accDist d acc := rfl

theorem accTitle_strip (d : TData) (acc : StatsAcc) :
    accTitle { d with id := "", parentId := none } acc = accTitle d acc := rfl

theorem accNotes_strip (d : TData) (acc : StatsAcc) :
    accNotes { d with id := "", parentId := none } acc = accNotes d acc := rfl

theorem accMarkers_strip (d : TData) (acc : StatsAcc) :
    accMarkers { d with id := "", parentId := none } acc = accMarkers d acc := rfl

theorem accLinks_strip (d : TData) (acc : StatsAcc) :
    accLinks { d with id := "", parentId := none } acc = accLinks d acc := rfl

theorem accAttachments_strip (d : TData) (acc : StatsAcc) :
    accAttachments { d with id := "", parentId := none } acc
      = accAttachments d acc := rfl

theorem accTopic_strip (d : TData) (acc : StatsAcc) :
    accTopic { d with id := "", parentId := none } acc = accTopic d acc := by
  unfold accTopic
  rw [accDepth_strip, accDist_strip, accTitle_strip, accNotes_strip,
    accMarkers_strip, accLinks_strip, accAttachments_strip]

mutual
theorem traverseTopic_stripIds (t : XTopic) (acc : StatsAcc) :
    traverseTopic (stripIds t) acc = traverseTopic t acc := by
  cases t with
  | mk d ch =>
    rw [stripIds, traverseTopic, traverseTopic, accTopic_strip,
      traverseList_stripIds]

theorem traverseList_stripIds (ts : XTList) (acc : StatsAcc) :
    traverseList (stripIdsList ts) acc = traverseList ts acc := by
  cases ts with
  | nil => rfl
  | cons c cs =>
    rw [stripIdsList, traverseList, traverseList, traverseTopic_stripIds,
      traverseList_stripIds]
end

mutual
theorem convertTopicLines_stripIds (opts : Options)
    (hids : opts.includeIds = false) (t : XTopic) (depth : Nat) :
    convertTopicLines opts (stripIds t) depth = convertTopicLines opts t depth := by
  cases t with
  | mk d ch =>
    rw [stripIds]
    rw [convertTopicLines.eq_def, convertTopicLines.eq_def]
    dsimp only
    rw [convertChildrenLines_stripIds opts hids ch (depth + 1)]
    simp [hids]

theorem convertChildrenLines_stripIds (opts : Options)
    (hids : opts.includeIds = false) (ts : XTList) (depth : Nat) :
    convertChildrenLines opts (stripIdsList ts) depth
      = convertChildrenLines opts ts depth := by
  cases ts with
  | nil => rfl
  | cons c cs =>
    rw [stripIdsList, convertChildrenLines, convertChildrenLines,
      convertTopicLines_stripIds opts hids, convertChildrenLines_stripIds opts hids]
end

end XM

namespace XM

theorem topicTreeToMarkdown_now (opts : Options) (n1 n2 : String) (t : XTopic)
    (hmeta : opts.includeMetadata = false) :
    topicTreeToMarkdown opts n1 t = topicTreeToMarkdown opts n2 t := by
  unfold topicTreeToMarkdown
  simp [hmeta]

theorem topicTreeToMarkdown_stripIds (opts : Options) (n : String)
    (hids : opts.includeIds = false) (hmeta : opts.includeMetadata = false)
    (t : XTopic) :
    topicTreeToMarkdown opts n (stripIds t) = topicTreeToMarkdown opts n t := by
  cases t with
  | mk d ch =>
    rw [stripIds]
    unfold topicTreeToMarkdown
    simp only [hmeta, Bool.false_eq_true, if_false]
    rw [XTopic.children, XTopic.children, XTopic.data, XTopic.data]
    cases ch with
    | nil => rfl
    | cons c cs =>
      rw [stripIdsList]
      dsimp only
      simp only [convertChildrenLines]
      rw [convertTopicLines_stripIds opts hids c 2,
        convertChildrenLines_stripIds opts hids cs 2]

end XM

namespace XM

theorem content_det (mm : MarkerMap) (opts : Options)
    (hids : opts.includeIds = false) (hmeta : opts.includeMetadata = false)
    (p : ParsedTopic) (n n' : String) (g g' : Gen) :
    topicTreeToMarkdown opts n (parseTopic mm opts p 0 none g).1 =
    topicTreeToMarkdown opts n' (parseTopic mm opts p 0 none g').1 := by
  calc topicTreeToMarkdown opts n (parseTopic mm opts p 0 none g).1
      = topicTreeToMarkdown opts n (stripIds (parseTopic mm opts p 0 none g).1) :=
        (topicTreeToMarkdown_stripIds opts n hids hmeta _).symm
    _ = topicTreeToMarkdown opts n (stripIds (parseTopic mm opts p 0 none g').1) := by
        rw [stripIds_parseTopic mm opts p 0 none none g g']
    _ = topicTreeToMarkdown opts n (parseTopic mm opts p 0 none g').1 :=
        topicTreeToMarkdown_stripIds opts n hids hmeta _
    _ = topicTreeToMarkdown opts n' (parseTopic mm opts p 0 none g').1 :=
        topicTreeToMarkdown_now opts n n' _ hmeta

theorem stats_det (mm : MarkerMap) (opts : Options) (p : ParsedTopic)
    (g g' : Gen) (acc : StatsAcc) :
    traverseTopic (parseTopic mm opts p 0 none g).1 acc =
    traverseTopic (parseTopic mm opts p 0 none g').1 acc := by
  calc traverseTopic (parseTopic mm opts p 0 none g).1 acc
      = traverseTopic (stripIds (parseTopic mm opts p 0 none g).1) acc :=
        (traverseTopic_stripIds _ acc).symm
    _ = traverseTopic (stripIds (parseTopic mm opts p 0 none g').1) acc := by
        rw [stripIds_parseTopic mm opts p 0 none none g g']
    _ = traverseTopic (parseTopic mm opts p 0 none g').1 acc :=
        traverseTopic_stripIds _ acc

end XM

namespace XM

theorem leadingHashes_line (depth : Nat) (a b c : String) :
    leadingHashes (hashesFor depth ++ " " ++ a ++ b ++ c) = min depth 6 := by
  unfold leadingHashes hashesFor
  rw [String.data_append, String.data_append, String.data_append,
    String.data_append]
  dsimp only
  rw [List.append_assoc, List.append_assoc, List.append_assoc]
  rw [List.singleton_append]
  rw [takeWhile_hashes]
  exact List.length_replicate _ _

/-- Claim C10: for every topic and rendering depth the emitted heading line
starts with exactly `min(depth, 6)` hash characters, hence never more than
six. -/
theorem convertTopic_heading_capped (opts : Options) (t : XTopic) (depth : Nat) :
    (convertTopicLines opts t depth).head?.map leadingHashes = some (min depth 6)
      ∧ min depth 6 ≤ 6 := by
  constructor
  · cases t with
    | mk d ch =>
      rw [convertTopicLines.eq_def]
      dsimp only
      simp only [List.cons_append, List.head?_cons, Option.map_some']
      rw [leadingHashes_line]
  · exact Nat.min_le_right _ _

end XM

namespace XM

/-- Claim C6: title sanitization is exactly collapse-whitespace + trim +
escape of the two angle brackets, and on `"  A   <b>  "` yields
`"A &lt;b&gt;"`. -/
theorem sanitizeTitle_spec_and_example :
    (∀ s : String, sanitizeTitle s = sanitizeTitleSpec s)
      ∧ sanitizeTitle "  A   <b>  " = "A &lt;b&gt;" :=
  ⟨sanitizeTitle_eq_spec, by decide⟩

/-- Claim C3 (counterexample): for a childless root, the stats returned by
the converter's `StatsCalculator` report `rootTopics = 1`, not `0` as the
claim requires. -/
theorem rootTopics_leaf_counterexample :
    (calculateDetailedStats leafTopic 0).rootTopics = 1
      ∧ (calculateStats leafTopic 0).rootTopics = 1
      ∧ (1 : Nat) ≠ 0 := by
  refine ⟨?_, ?_, by decide⟩ <;> decide

/-- Claim C3 (amended): `StatsCalculator.calculateStats` and
`calculateDetailedStats` always report the constant `rootTopics = 1`; only
the client-side converter's `calculateStats` reports the number of direct
children of the root. -/
theorem rootTopics_amended (t : XTopic) (e : Nat) :
    (calculateStats t e).rootTopics = 1
      ∧ (calculateDetailedStats t e).rootTopics = 1
      ∧ (Client.calculateStats t e).rootTopics = t.children.length := by
  refine ⟨?_, ?_, rfl⟩
  · unfold calculateStats
    dsimp only
    rw [traverseTopic_rootTopics]
    rfl
  · unfold calculateDetailedStats
    dsimp only
    rw [traverseTopic_rootTopics]
    rfl

end XM

namespace XM

/-- Claim C1 (counterexample): converting the scenario document yields
`"# Root\n\n## Child 🚩"` — the marker is appended after the title and there
is no trailing newline — not the claimed `"# Root\n\n## 🚩 Child\n"`. -/
theorem marker_scenario_counterexample :
    (convert defaultOptions scenarioPx (some "demo.xmind") scenarioZip runGen
        "TS" 4).content = "# Root\n\n## Child 🚩"
      ∧ "# Root\n\n## Child 🚩" ≠ "# Root\n\n## 🚩 Child\n" := by
  exact ⟨by decide, by decide⟩

/-- Claim C1 (amended): when a topic has at least one resolved marker the
renderer appends all marker symbols space-joined after the sanitized title;
the scenario document renders as `"# Root\n\n## Child 🚩"`. -/
theorem marker_suffix_amended :
    (∀ (t : XTopic) (depth : Nat), t.data.markers ≠ [] →
      (convertTopicLines defaultOptions t depth).head?
        = some (hashesFor depth ++ " " ++ sanitizeTitle t.data.title
            ++ (" " ++ String.intercalate " " t.data.markers)))
    ∧ (convert defaultOptions scenarioPx (some "demo.xmind") scenarioZip runGen
        "TS" 4).content = "# Root\n\n## Child 🚩" := by
  constructor
  · intro t depth hm
    cases t with
    | mk d ch =>
      rw [XTopic.data] at hm
      rw [convertTopicLines.eq_def]
      dsimp only
      simp only [List.cons_append, List.head?_cons]
      rw [XTopic.data]
      rw [if_pos hm]
      simp [defaultOptions, String.append_empty]
  · decide

theorem marker_suffix_amended_witness :
    (convertTopicLines defaultOptions flaggedTopic 2).head?
      = some (hashesFor 2 ++ " " ++ sanitizeTitle flaggedTopic.data.title
          ++ (" " ++ String.intercalate " " flaggedTopic.data.markers)) :=
  marker_suffix_amended.1 flaggedTopic 2 (by decide)

end XM

namespace Plan

/-- Claim C2 (counterexample): at depth 4, a topic titled `"A："` (full-width
colon) with a child is rendered as `"- A：:"` — the existing full-width
colon is NOT stripped before the half-width colon is appended, contradicting
the claimed `"- A:"`. -/
theorem fullwidth_colon_counterexample :
    (topicLines fullwidthColonTopic 4).head? = some "- A：:"
      ∧ "- A：:" ≠ "- A:" := by
  exact ⟨by decide, by decide⟩

/-- Claim C2 (amended): at rendering depth ≥ 4 the plan document's renderer
`topicToMarkdown` emits `"  "*(depth-4) ++ "- " ++ marker emoji ++ trimmed
title with only a trailing half-width colon stripped`, appending `":"`
exactly when the topic has children; the library renderer `convertTopic`
renders headings at every depth instead (see the C10 theorem). -/
theorem bullet_line_amended (t : PlanTopic) (depth : Nat) (h4 : 4 ≤ depth) :
    (topicLines t depth).head?
      = some (String.mk (List.replicate ((depth - 4) * 2) ' ') ++ "- "
          ++ getMarkerEmoji t
          ++ stripColon (String.mk (Js.trim ((Js.orElse t.title "(無標題)").data)))
          ++ (if t.children.isCons then ":" else "")) := by
  cases t with
  | mk titleOpt mrefs children =>
    rw [topicLines.eq_def]
    dsimp only
    rw [if_neg (by omega : ¬depth = 1), if_neg (by omega : ¬depth = 2),
      if_neg (by omega : ¬depth = 3)]
    simp only [PlanTopic.title, PlanTopic.children]
    cases children with
    | nil =>
      simp only [PlanTList.isCons, Bool.false_eq_true, if_false]
      simp [String.append_empty]
    | cons c cs =>
      simp only [PlanTList.isCons, if_true]
      simp only [List.cons_append, List.head?_cons]

theorem bullet_line_amended_witness :
    (topicLines fullwidthColonTopic 4).head?
      = some (String.mk (List.replicate ((4 - 4) * 2) ' ') ++ "- "
          ++ getMarkerEmoji fullwidthColonTopic
          ++ stripColon (String.mk (Js.trim
              ((Js.orElse fullwidthColonTopic.title "(無標題)").data)))
          ++ (if fullwidthColonTopic.children.isCons then ":" else "")) :=
  bullet_line_amended fullwidthColonTopic 4 (by decide)

end Plan

namespace XM

/-- Claim C4: when the parsed XML content lacks a root topic element,
`convert` does not throw but returns a failed result with an error message
containing "root topic", empty content and all-zero stats counts. -/
theorem missing_root_topic (px : String → Except String ParsedContent)
    (fn : Option String) (zip : Zip) (g : Gen) (n : String) (e : Nat)
    (xml : String) (content : ParsedContent)
    (hz : extractXmindContent zip = .ok xml)
    (hp : px xml = .ok content)
    (ht : content.topic = none) :
    (convert defaultOptions px fn zip g n e).success = false
    ∧ ("root topic".data <:+:
        ((convert defaultOptions px fn zip g n e).error.getD "").data)
    ∧ (convert defaultOptions px fn zip g n e).content = ""
    ∧ (convert defaultOptions px fn zip g n e).stats.totalTopics = 0
    ∧ (convert defaultOptions px fn zip g n e).stats.maxDepthReached = 0
    ∧ (convert defaultOptions px fn zip g n e).stats.rootTopics = 0
    ∧ (convert defaultOptions px fn zip g n e).stats.markersProcessed = 0
    ∧ (convert defaultOptions px fn zip g n e).stats.attachmentsProcessed = 0
    ∧ (convert defaultOptions px fn zip g n e).stats.linksProcessed = 0
    ∧ (convert defaultOptions px fn zip g n e).stats.imagesProcessed = 0 := by
  unfold convert
  rw [hz]
  dsimp only
  rw [hp]
  dsimp only
  unfold extractTopicTree
  rw [ht]
  dsimp only
  refine ⟨rfl, ?_, rfl, rfl, rfl, rfl, rfl, rfl, rfl, rfl⟩
  show ("root topic".data <:+: "No root topic found in XMind content".data)
  decide

theorem missing_root_topic_witness :
    (convert defaultOptions (fun _ => .ok ⟨none⟩) none
        [("content/content.xml", "w")] runGen "T" 3).success = false
    ∧ (convert defaultOptions (fun _ => .ok ⟨none⟩) none
        [("content/content.xml", "w")] runGen "T" 3).content = "" := by
  have h := missing_root_topic (fun _ => .ok ⟨none⟩) none
    [("content/content.xml", "w")] runGen "T" 3 "w" ⟨none⟩ rfl rfl rfl
  exact ⟨h.1, h.2.2.1⟩

/-- Claim C5: every tree built by the Topic Tree Builder has a root at level
0 with no parent, and recursively every child's level is its parent's plus
one and its `parentId` is its parent's id. -/
theorem topicTree_levels (mm : MarkerMap) (opts : Options)
    (content : ParsedContent) (g g2 : Gen) (root : XTopic)
    (h : extractTopicTree mm opts content g = .ok (root, g2)) :
    root.data.level = 0 ∧ root.data.parentId = none ∧ wfTopic root = true := by
  unfold extractTopicTree at h
  cases hct : content.topic with
  | none =>
    rw [hct] at h
    exact absurd h (by simp)
  | some rt =>
    rw [hct] at h
    have h2 : parseTopic mm opts rt 0 none g = (root, g2) := by
      exact Except.ok.inj h
    have h3 : (parseTopic mm opts rt 0 none g).1 = root := by rw [h2]
    rw [← h3]
    exact parseTopic_wf mm opts rt 0 none g

theorem topicTree_levels_witness :
    (parseTopic defaultMarkerMap defaultOptions scenarioRoot 0 none runGen).1.data.level = 0
    ∧ (parseTopic defaultMarkerMap defaultOptions scenarioRoot 0 none runGen).1.data.parentId = none
    ∧ wfTopic (parseTopic defaultMarkerMap defaultOptions scenarioRoot 0 none runGen).1 = true :=
  topicTree_levels defaultMarkerMap defaultOptions scenarioContent runGen
    (parseTopic defaultMarkerMap defaultOptions scenarioRoot 0 none runGen).2
    (parseTopic defaultMarkerMap defaultOptions scenarioRoot 0 none runGen).1
    rfl

end XM

namespace XM

/-- Claim C7: the archive entry candidates are tried in the order
`content/content.xml`, `content.xml`, `src/content.xml`,
`META-INF/content.xml`, the first existing entry wins, and when none exists
the conversion fails with an error mentioning "content.xml". -/
theorem contentPath_order :
    (∀ (zip : Zip) (c : String),
        List.lookup "content/content.xml" zip = some c →
        extractXmindContent zip = .ok c)
    ∧ (∀ (zip : Zip) (c : String),
        List.lookup "content/content.xml" zip = none →
        List.lookup "content.xml" zip = some c →
        extractXmindContent zip = .ok c)
    ∧ (∀ (zip : Zip) (c : String),
        List.lookup "content/content.xml" zip = none →
        List.lookup "content.xml" zip = none →
        List.lookup "src/content.xml" zip = some c →
        extractXmindContent zip = .ok c)
    ∧ (∀ (zip : Zip) (c : String),
        List.lookup "content/content.xml" zip = none →
        List.lookup "content.xml" zip = none →
        List.lookup "src/content.xml" zip = none →
        List.lookup "META-INF/content.xml" zip = some c →
        extractXmindContent zip = .ok c)
    ∧ (∀ (zip : Zip) (px : String → Except String ParsedContent)
        (fn : Option String) (g : Gen) (n : String) (e : Nat),
        List.lookup "content/content.xml" zip = none →
        List.lookup "content.xml" zip = none →
        List.lookup "src/content.xml" zip = none →
        List.lookup "META-INF/content.xml" zip = none →
        extractXmindContent zip = .error "Could not find content.xml in XMind file"
        ∧ (convert defaultOptions px fn zip g n e).success = false
        ∧ ("content.xml".data <:+:
            ((convert defaultOptions px fn zip g n e).error.getD "").data)) := by
  refine ⟨?_, ?_, ?_, ?_, ?_⟩
  · intro zip c h1
    simp [extractXmindContent, contentPaths, findContent, h1]
  · intro zip c h1 h2
    simp [extractXmindContent, contentPaths, findContent, h1, h2]
  · intro zip c h1 h2 h3
    simp [extractXmindContent, contentPaths, findContent, h1, h2, h3]
  · intro zip c h1 h2 h3 h4
    simp [extractXmindContent, contentPaths, findContent, h1, h2, h3, h4]
  · intro zip px fn g n e h1 h2 h3 h4
    have hz : extractXmindContent zip
        = .error "Could not find content.xml in XMind file" := by
      simp [extractXmindContent, contentPaths, findContent, h1, h2, h3, h4]
    refine ⟨hz, ?_, ?_⟩
    · unfold convert
      rw [hz]
      rfl
    · unfold convert
      rw [hz]
      show ("content.xml".data <:+:
        "Could not find content.xml in XMind file".data)
      decide

theorem contentPath_order_witness :
    extractXmindContent [("content/content.xml", "A"), ("content.xml", "B")]
        = .ok "A"
    ∧ extractXmindContent [("other", "x")]
        = .error "Could not find content.xml in XMind file" := by
  constructor
  · exact contentPath_order.1 [("content/content.xml", "A"), ("content.xml", "B")]
      "A" rfl
  · exact (contentPath_order.2.2.2.2 [("other", "x")] (fun s => .error s) none
      runGen "T" 0 rfl rfl rfl rfl).1

end XM

namespace XM

theorem extractMarkers_unknown_mem (mm : MarkerMap) (refs : List (Option String))
    (id : String) (hmem : some id ∈ refs) (hne : id ≠ "") (hmm : mm id = none) :
    ("[" ++ id ++ "]") ∈ extractMarkers mm refs := by
  induction refs with
  | nil => cases hmem
  | cons r rest ih =>
    cases r with
    | none =>
      have hm2 : some id ∈ rest := by
        rcases List.mem_cons.mp hmem with h | h
        · exact absurd h (by simp)
        · exact h
      simp only [extractMarkers]
      exact ih hm2
    | some rid =>
      simp only [extractMarkers]
      by_cases hr : rid = ""
      · rw [if_neg (not_ne_iff.mpr hr)]
        have hm2 : some id ∈ rest := by
          rcases List.mem_cons.mp hmem with h | h
          · exact absurd (Option.some.inj h) (by rw [hr] at *; exact hne)
          · exact h
        exact ih hm2
      · rw [if_pos hr]
        rcases List.mem_cons.mp hmem with h | h
        · have hid : id = rid := Option.some.inj h
          subst hid
          rw [hmm]
          simp [Js.truthy]
        · exact List.mem_append_right _ (ih h)

/-- Claim C8: a marker-reference entry whose id is missing from the lookup
table resolves (without any exception — resolution is total) to the
non-empty bracketed fallback `[id]`, so it appears in the extracted marker
list; entries with no identifier are skipped. -/
theorem unknown_marker_fallback :
    (∀ (mm : MarkerMap) (refs : List (Option String)) (id : String),
        some id ∈ refs → id ≠ "" → mm id = none →
        ("[" ++ id ++ "]") ∈ extractMarkers mm refs ∧ ("[" ++ id ++ "]") ≠ "")
    ∧ (∀ (mm : MarkerMap) (refs : List (Option String)),
        extractMarkers mm (none :: refs) = extractMarkers mm refs) := by
  constructor
  · intro mm refs id h1 h2 h3
    refine ⟨extractMarkers_unknown_mem mm refs id h1 h2 h3, ?_⟩
    intro hc
    have hd := congrArg String.data hc
    rw [String.data_append, String.data_append] at hd
    simp at hd
  · intro mm refs
    simp only [extractMarkers]

theorem unknown_marker_fallback_witness :
    ("[" ++ "zz" ++ "]") ∈ extractMarkers (fun _ => none) [some "zz"]
    ∧ ("[" ++ "zz" ++ "]") ≠ "" :=
  unknown_marker_fallback.1 (fun _ => none) [some "zz"] "zz"
    (List.mem_cons_self _ _) (by decide) rfl

end XM

namespace XM

/-- Claim C9: re-running `convert` (default configuration) on the same
archive with a different id supply, timestamp and measured duration yields
identical content, success flag and error, identical stats apart from
`processingTime`, and identical metadata apart from `timestamp`. -/
theorem convert_deterministic (px : String → Except String ParsedContent)
    (fn : Option String) (zip : Zip) (g g' : Gen) (n n' : String) (e e' : Nat) :
    (convert defaultOptions px fn zip g n e).content
        = (convert defaultOptions px fn zip g' n' e').content
    ∧ (convert defaultOptions px fn zip g n e).success
        = (convert defaultOptions px fn zip g' n' e').success
    ∧ (convert defaultOptions px fn zip g n e).error
        = (convert defaultOptions px fn zip g' n' e').error
    ∧ { (convert defaultOptions px fn zip g n e).stats with processingTime := 0 }
        = { (convert defaultOptions px fn zip g' n' e').stats with processingTime := 0 }
    ∧ { (convert defaultOptions px fn zip g n e).metadata with timestamp := "" }
        = { (convert defaultOptions px fn zip g' n' e').metadata with timestamp := "" } := by
  unfold convert
  cases hz : extractXmindContent zip with
  | error msg => exact ⟨rfl, rfl, rfl, rfl, rfl⟩
  | ok xml =>
    dsimp only
    cases hp : px xml with
    | error msg => exact ⟨rfl, rfl, rfl, rfl, rfl⟩
    | ok content =>
      dsimp only
      unfold extractTopicTree
      cases hct : content.topic with
      | none => exact ⟨rfl, rfl, rfl, rfl, rfl⟩
      | some rt =>
        dsimp only
        refine ⟨?_, rfl, rfl, ?_, rfl⟩
        · exact content_det defaultMarkerMap defaultOptions rfl rfl rt n n' g g'
        · have hacc := stats_det defaultMarkerMap defaultOptions rt g g' initAcc
          unfold calculateDetailedStats DetailedStats.base
          dsimp only
          rw [hacc]

end XM
